import Mathlib

/-!
# ngrok web view (`src/ngrok/client/views/web/view.go`)

A shallow embedding of the HTTP handlers installed by `NewWebView`:

* `/_ws`          : `wsHandler`  (upgrade, `Reg`, deferred `UnReg`, drain loop)
* `/static/`      : `staticHandler`
* `/rest/status`  : `statusDocument` and `statusHandler`

Handlers are functions from the behaviour of their collaborators (the websocket
connection, the subscriber channel, the controller state, the asset table, the
JSON encoder) to the list of effects they perform, in program order, together
with the way the handler invocation ends.
-/

namespace Ngrok

/-! ## Basic data -/

/-- Go `[]byte`, and Go `string` where the code slices it. -/
abbrev Bytes := List UInt8

/-- Identity of a `chan interface{}` handed out by the broadcast hub. -/
abbrev Chan := Nat

/-- A Go `interface{}` value travelling through the hub: either a `[]byte`, or a value of
any other dynamic type (described by the name of that type; `nil` included). -/
inductive Value where
  | bytes (b : Bytes)
  | other (typeName : String)
  deriving DecidableEq, Repr

/-- The constant `websocket.TextMessage` of gorilla/websocket. -/
def TextMessage : Int := 1

/-- Everything a handler of `view.go` does to the outside world. `hubPublish` is a hub
operation of `util.Broadcast` that no handler of this file performs. -/
inductive Effect where
  -- `w.Header().Set(key, value)`
  | setHeader (key value : String)
  -- `http.Error(w, msg, code)`
  | httpError (msg : String) (code : Nat)
  -- `http.NotFound(w, r)`
  | notFound
  -- `w.Write(body)`
  | write (body : Bytes)
  -- `wv.Warn(format, args...)`
  | warn (format : String) (args : List String)
  -- `wv.wsMessages.Reg()` was called and returned `ch`
  | hubReg (ch : Chan)
  -- `wv.wsMessages.UnReg(ch)`
  | hubUnReg (ch : Chan)
  -- a send on `wv.wsMessages.In()`
  | hubPublish (v : Value)
  -- `conn.WriteMessage(messageType, data)` was called and returned `err`
  | wsWrite (messageType : Int) (data : Bytes) (err : Option String)
  deriving DecidableEq, Repr

/-- Is the effect an operation on the hub? -/
def Effect.isHub : Effect → Bool
  | .hubReg _ => true
  | .hubUnReg _ => true
  | .hubPublish _ => true
  | _ => false

/-- Is the effect a write on the websocket connection? -/
def Effect.isWsWrite : Effect → Bool
  | .wsWrite _ _ _ => true
  | _ => false

/-- The websocket writes of a trace: message type and payload of each attempt, in order. -/
def wsWrites : List Effect → List (Int × Bytes)
  | [] => []
  | .wsWrite t d _ :: rest => (t, d) :: wsWrites rest
  | _ :: rest => wsWrites rest

/-- How a handler invocation ends: it returns, it panics, or it stays blocked forever
on a channel receive. -/
inductive Outcome where
  | returned
  | panicked (msg : String)
  | blocked
  deriving DecidableEq, Repr

/-! ## The `/_ws` handler -/

/-- A `*websocket.Conn`, as far as the handler uses it: `WriteMessage n t d` is the error
(`none` for `nil`) returned by the call `conn.WriteMessage(t, d)` when `n` calls were made
on the connection before it. -/
structure Conn where
  WriteMessage : Nat → Int → Bytes → Option String

/-- What arrives on a subscriber channel: the values received, in order, and whether the
channel is closed afterwards (otherwise a receive past the last value blocks forever). -/
structure Feed where
  events : List Value
  closed : Bool

/-- The collaborators of one `/_ws` request. -/
structure WsEnv where
  -- result of `websocket.Upgrade(w, r, nil, 1024, 1024)`
  upgrade : Except String Conn
  -- the channel returned by `wv.wsMessages.Reg()`
  Reg : Chan
  -- what is received on each channel
  feed : Chan → Feed

/-- Panic message of the failed type assertion `m.([]byte)`. -/
def assertPanic (typeName : String) : String :=
  "interface conversion: interface {} is " ++ typeName ++ ", not []uint8"

/-- The loop `for m := range msgs { ... }` of the `/_ws` handler; `n` counts the calls of
`conn.WriteMessage` made so far. The type assertion `m.([]byte)` is evaluated before the
call, so a value that is not a `[]byte` panics without a write; a write error breaks out
of the loop. -/
def drain (conn : Conn) : Nat → List Value → Bool → List Effect × Outcome
  | _, [], closed => ([], if closed then .returned else .blocked)
  | _, .other ty :: _, _ => ([], .panicked (assertPanic ty))
  | n, .bytes b :: rest, closed =>
    match conn.WriteMessage n TextMessage b with
    | some err => ([.wsWrite TextMessage b (some err)], .returned)
    | none =>
      let r := drain conn (n + 1) rest closed
      (.wsWrite TextMessage b none :: r.1, r.2)

/-- The handler registered on `"/_ws"`. The deferred `UnReg(msgs)` runs when the function
returns and when it panics; it does not run while the loop is blocked. -/
def wsHandler (env : WsEnv) : List Effect × Outcome :=
  match env.upgrade with
  | .error err =>
    ([.httpError "Failed websocket upgrade" 400,
      .warn "Failed websocket upgrade: %v" [err]], .returned)
  | .ok conn =>
    let msgs := env.Reg
    let r := drain conn 0 (env.feed msgs).events (env.feed msgs).closed
    match r.2 with
    | .blocked => (.hubReg msgs :: r.1, .blocked)
    | out => (.hubReg msgs :: r.1 ++ [.hubUnReg msgs], out)

/-! ## The `/static/` handler -/

/-- The bytes of a Go string literal (UTF-8). -/
def goString (s : String) : Bytes := s.data.flatMap String.utf8EncodeChar

/-- The slice expression `s[lo:]` on a Go string: the bytes from index `lo` on, and a
run-time panic when `lo` exceeds the length. -/
def sliceFrom (s : Bytes) (lo : Nat) : Except String Bytes :=
  if lo ≤ s.length then .ok (s.drop lo)
  else .error "runtime error: slice bounds out of range"

/-- The collaborators of one `/static/` request: the standard library's `path.Join` and the
bundled asset table `assets.Asset` (package `ngrok/client/assets`). -/
structure StaticEnv where
  Join : List Bytes → Bytes
  Asset : Bytes → Except String Bytes

/-- The handler registered on `"/static/"`; `urlPath` is `r.URL.Path`. -/
def staticHandler (env : StaticEnv) (urlPath : Bytes) : List Effect × Outcome :=
  match sliceFrom urlPath 1 with
  | .error msg => ([], .panicked msg)
  | .ok name =>
    match env.Asset (env.Join [goString "assets", goString "client", name]) with
    | .error err => ([.warn "Error serving static file: %s" [err], .notFound], .returned)
    | .ok buf => ([.write buf], .returned)

/-! ## The `/rest/status` handler -/

/-- A Go `float64`, carried as its IEEE-754 bit pattern; the handler never computes with
one. -/
structure Float64 where
  bits : Nat
  deriving DecidableEq, Repr

/-- The literal `0.5`. -/
def q50 : Float64 := ⟨0x3FE0000000000000⟩
/-- The literal `0.75`. -/
def q75 : Float64 := ⟨0x3FE8000000000000⟩
/-- The literal `0.95`. -/
def q95 : Float64 := ⟨0x3FEE666666666666⟩
/-- The literal `0.99`. -/
def q99 : Float64 := ⟨0x3FEFAE147AE147AE⟩
/-- The literal `0.999`. -/
def q999 : Float64 := ⟨0x3FEFF7CED916872B⟩

/-- The argument `[]float64{0.5, 0.75, 0.95, 0.99, 0.999}` of both `Percentiles` calls. -/
def quantiles : List Float64 := [q50, q75, q95, q99, q999]

/-- An `mvc.Tunnel`. The type is declared in package `mvc`; the handler only hands the
values on, so a tunnel is an identifier here. -/
structure Tunnel where
  id : Nat
  deriving DecidableEq, Repr

/-- A metric field value: an `int64` or a `float64`. -/
inductive Scalar where
  | int (i : Int)
  | float (f : Float64)
  deriving DecidableEq, Repr

/-- The assignment `m[k] = v` on a Go map, the map being the list of its entries: the
entry of `k` is replaced when there is one and added otherwise. -/
def mapSet {α : Type} : List (String × α) → String → α → List (String × α)
  | [], k, v => [(k, v)]
  | (k', v') :: rest, k, v =>
    if k' = k then (k, v) :: rest else (k', v') :: mapSet rest k v

/-- The lookup `m[k]` on a Go map. -/
def mapGet {α : Type} : List (String × α) → String → Option α
  | [], _ => none
  | (k', v') :: rest, k => if k' = k then some v' else mapGet rest k

/-- The keys of a Go map. -/
def mapKeys {α : Type} (m : List (String × α)) : List String := m.map Prod.fst

/-- The map `values` of metric fields. -/
abbrev Values := List (String × Scalar)

/-- What the handler stores under the top-level keys of `j`. -/
inductive Any where
  | tunnels (ts : List Tunnel)
  | string (s : String)
  | connStatus (c : Int)
  | values (v : Values)
  deriving DecidableEq, Repr

/-- The map `j`, the status document. -/
abbrev Document := List (String × Any)

/-- A `metrics.Meter` snapshot (go-metrics), as read by the handler. -/
structure MeterSnapshot where
  Count : Int
  Rate1 : Float64
  Rate5 : Float64
  Rate15 : Float64
  RateMean : Float64

/-- A `metrics.Meter`. -/
structure Meter where
  Snapshot : MeterSnapshot

/-- A `metrics.Counter`. -/
structure Counter where
  Count : Int

/-- A `metrics.Histogram` snapshot, as read by the handler. -/
structure HistogramSnapshot where
  Min : Int
  Max : Int
  Mean : Float64
  StdDev : Float64
  Percentiles : List Float64 → List Float64

/-- A `metrics.Histogram`. -/
structure Histogram where
  Snapshot : HistogramSnapshot

/-- The `mvc.State` returned by `ctl.State()`, with the methods the handler calls (the
interface is declared in package `mvc`). `GetConnectionMetrics` is the first of the two
results, the second being discarded by the handler. -/
structure State where
  GetTunnels : List Tunnel
  GetClientVersion : String
  GetServerVersion : String
  GetConnStatus : Int
  GetConnectionMetrics : Meter
  GetBytesInMetrics : Counter × Histogram
  GetBytesOutMetrics : Counter × Histogram

/-- The index expression `ps[i]` on a slice: a run-time panic when out of range. -/
def index (ps : List Float64) (i : Nat) : Except String Float64 :=
  match ps[i]? with
  | some v => .ok v
  | none => .error "runtime error: index out of range"

/-- The body of the `/rest/status` handler from `j := make(...)` up to the last assignment
`j["bytes_out"] = values`, statement by statement. -/
def statusDocument (st : State) : Except String Document := do
  let j : Document := []
  let j := mapSet j "tunnels" (.tunnels st.GetTunnels)
  let j := mapSet j "client_version" (.string st.GetClientVersion)
  let j := mapSet j "server_version" (.string st.GetServerVersion)
  let j := mapSet j "connection_status" (.connStatus st.GetConnStatus)
  let values : Values := []
  let meter := st.GetConnectionMetrics
  let m := meter.Snapshot
  let values := mapSet values "count" (.int m.Count)
  let values := mapSet values "1m.rate" (.float m.Rate1)
  let values := mapSet values "5m.rate" (.float m.Rate5)
  let values := mapSet values "15m.rate" (.float m.Rate15)
  let values := mapSet values "mean.rate" (.float m.RateMean)
  let j := mapSet j "connection_metrics" (.values values)
  let values : Values := []
  let (counter, histogram) := st.GetBytesInMetrics
  let values := mapSet values "count" (.int counter.Count)
  let h := histogram.Snapshot
  let ps := h.Percentiles quantiles
  let values := mapSet values "min" (.int h.Min)
  let values := mapSet values "max" (.int h.Max)
  let values := mapSet values "mean" (.float h.Mean)
  let values := mapSet values "stddev" (.float h.StdDev)
  let values := mapSet values "median" (.float (← index ps 0))
  let values := mapSet values "75%" (.float (← index ps 1))
  let values := mapSet values "95%" (.float (← index ps 2))
  let values := mapSet values "99%" (.float (← index ps 3))
  let values := mapSet values "99.9%" (.float (← index ps 4))
  let j := mapSet j "bytes_in" (.values values)
  let values : Values := []
  let (counter, histogram) := st.GetBytesOutMetrics
  let values := mapSet values "count" (.int counter.Count)
  let h := histogram.Snapshot
  let ps := h.Percentiles quantiles
  let values := mapSet values "min" (.int h.Min)
  let values := mapSet values "max" (.int h.Max)
  let values := mapSet values "mean" (.float h.Mean)
  let values := mapSet values "stddev" (.float h.StdDev)
  let values := mapSet values "median" (.float (← index ps 0))
  let values := mapSet values "75%" (.float (← index ps 1))
  let values := mapSet values "95%" (.float (← index ps 2))
  let values := mapSet values "99%" (.float (← index ps 3))
  let values := mapSet values "99.9%" (.float (← index ps 4))
  let j := mapSet j "bytes_out" (.values values)
  return j

/-- The collaborators of one `/rest/status` request: the controller state and the
encoder `json.Marshal`. -/
structure StatusEnv where
  State : State
  Marshal : Document → Except String Bytes

/-- The handler registered on `"/rest/status"`; 500 is `http.StatusInternalServerError`. -/
def statusHandler (env : StatusEnv) : List Effect × Outcome :=
  let header := Effect.setHeader "Content-Type" "application/json; charset=utf-8"
  match statusDocument env.State with
  | .error msg => ([header], .panicked msg)
  | .ok j =>
    match env.Marshal j with
    | .error err => ([header, .httpError err 500], .returned)
    | .ok a => ([header, .write a], .returned)

/-- The top-level keys of the status document. -/
def topLevelKeys : List String :=
  ["tunnels", "client_version", "server_version", "connection_status",
    "connection_metrics", "bytes_in", "bytes_out"]

/-- The field names the handler gives a histogram group. -/
def histogramFields : List String :=
  ["count", "min", "max", "mean", "stddev", "median", "75%", "95%", "99%", "99.9%"]

/-- The field names of a histogram group in the words of the specification. -/
def specHistogramFields : List String :=
  ["count", "min", "max", "mean", "stddev", "median", "p75", "p95", "p99", "p99.9"]

/-- The group `v` holds the count of counter `c`, the minimum, maximum, mean and standard
deviation of the snapshot `h`, and under the median and the four percentile fields the
answers of `h` to the query for 0.5, 0.75, 0.95, 0.99 and 0.999, in this order. -/
def IsHistogramGroup (v : Values) (c : Counter) (h : HistogramSnapshot) : Prop :=
  ∃ a0 a1 a2 a3 a4 : Float64,
    h.Percentiles [q50, q75, q95, q99, q999] = [a0, a1, a2, a3, a4] ∧
    mapGet v "count" = some (.int c.Count) ∧
    mapGet v "min" = some (.int h.Min) ∧
    mapGet v "max" = some (.int h.Max) ∧
    mapGet v "mean" = some (.float h.Mean) ∧
    mapGet v "stddev" = some (.float h.StdDev) ∧
    mapGet v "median" = some (.float a0) ∧
    mapGet v "75%" = some (.float a1) ∧
    mapGet v "95%" = some (.float a2) ∧
    mapGet v "99%" = some (.float a3) ∧
    mapGet v "99.9%" = some (.float a4)

/-! ## The broadcast hub -/

/-- Modelled from the spec: the hub `util.Broadcast` behind `wv.wsMessages`; package
`ngrok/util` is not among the sources. The hub owns the set of registered subscribers
(`listeners`); a subscriber is identified by its handle only, handles are handed out
fresh (`next`), and `delivered` is the record of every delivery made so far, in order, as
pairs of subscriber and event. -/
structure Broadcast where
  next : Chan
  listeners : List Chan
  delivered : List (Chan × Value)
  deriving DecidableEq, Repr

/-- Modelled from the spec: `util.NewBroadcast()`, the hub with no subscriber. -/
def NewBroadcast : Broadcast := ⟨0, [], []⟩

/-- Modelled from the spec: `Register` of the hub `util.Broadcast`; it creates a new
subscriber with a fresh delivery channel, adds it to the registered set and returns its
handle, and never fails. -/
def Broadcast.Reg (b : Broadcast) : Chan × Broadcast :=
  (b.next, ⟨b.next + 1, b.listeners ++ [b.next], b.delivered⟩)

/-- Modelled from the spec: `Unregister` of the hub `util.Broadcast`; it removes the
handle from the registered set, and is a no-op on a handle that is not registered. -/
def Broadcast.UnReg (b : Broadcast) (c : Chan) : Broadcast :=
  ⟨b.next, b.listeners.filter (fun l => l ≠ c), b.delivered⟩

/-- Modelled from the spec: `Publish` of the hub `util.Broadcast`; it delivers the event
to every subscriber in the registered set at the moment of the call. -/
def Broadcast.Publish (b : Broadcast) (v : Value) : Broadcast :=
  ⟨b.next, b.listeners, b.delivered ++ b.listeners.map (fun l => (l, v))⟩

/-- The events of a delivery record that went to subscriber `c`, in order. -/
def receivedOf (ds : List (Chan × Value)) (c : Chan) : List Value :=
  (ds.filter (fun d => d.1 = c)).map Prod.snd

/-- Modelled from the spec: what subscriber `c` of the hub `util.Broadcast` has received
so far, in order. -/
def Broadcast.received (b : Broadcast) (c : Chan) : List Value :=
  receivedOf b.delivered c

/-- A call on the hub. -/
inductive HubOp where
  | reg
  | unreg (c : Chan)
  | publish (v : Value)
  deriving DecidableEq, Repr

/-- The hub after one call. -/
def Broadcast.step (b : Broadcast) : HubOp → Broadcast
  | .reg => b.Reg.2
  | .unreg c => b.UnReg c
  | .publish v => b.Publish v

/-- The hub after a sequence of calls. -/
def Broadcast.run (b : Broadcast) (ops : List HubOp) : Broadcast :=
  ops.foldl Broadcast.step b

/-- The events published by a sequence of calls, in order. -/
def published : List HubOp → List Value
  | [] => []
  | .publish v :: ops => v :: published ops
  | _ :: ops => published ops

/-- Registered handles are distinct and, like every handle in the delivery record, were
handed out already. -/
structure Broadcast.Inv (b : Broadcast) : Prop where
  nodup : b.listeners.Nodup
  listeners_lt : ∀ c ∈ b.listeners, c < b.next
  delivered_lt : ∀ d ∈ b.delivered, d.1 < b.next

/-! ## Sample collaborators -/

/-- A connection on which every write succeeds. -/
def goodConn : Conn := ⟨fun _ _ _ => none⟩

/-- A connection whose second write (index 1) fails, every other one succeeds. -/
def flakyConn : Conn := ⟨fun n _ _ => if n = 1 then some "broken pipe" else none⟩

/-- A `/_ws` request whose upgrade yields `conn`, whose `Reg` returns channel 7, on which
`events` arrive and which is never closed. -/
def sampleWsEnv (conn : Conn) (events : List Value) : WsEnv :=
  ⟨.ok conn, 7, fun _ => ⟨events, false⟩⟩

/-- An empty histogram whose percentile query answers zero for each requested percentile. -/
def zeroHistogram : Histogram :=
  ⟨⟨0, 0, ⟨0⟩, ⟨0⟩, fun ps => ps.map (fun _ => ⟨0⟩)⟩⟩

/-- The all-zero, empty controller state. -/
def zeroState : State :=
  ⟨[], "", "", 0, ⟨⟨0, ⟨0⟩, ⟨0⟩, ⟨0⟩, ⟨0⟩⟩⟩, (⟨0⟩, zeroHistogram), (⟨0⟩, zeroHistogram)⟩

/-- A controller state whose inbound and outbound metrics differ in every field; the
percentile query of the inbound histogram answers 11..15, the outbound one 21..25. -/
def sampleState : State :=
  ⟨[⟨1⟩], "1.7", "1.6", 2, ⟨⟨3, ⟨31⟩, ⟨32⟩, ⟨33⟩, ⟨34⟩⟩⟩,
    (⟨100⟩, ⟨⟨1, 9, ⟨5⟩, ⟨2⟩, fun _ => [⟨11⟩, ⟨12⟩, ⟨13⟩, ⟨14⟩, ⟨15⟩]⟩⟩),
    (⟨200⟩, ⟨⟨10, 90, ⟨50⟩, ⟨20⟩, fun _ => [⟨21⟩, ⟨22⟩, ⟨23⟩, ⟨24⟩, ⟨25⟩]⟩⟩)⟩

/-- An asset table with the single asset `assets/client/static/js/app.js`, and a join
that puts a slash between the elements (as `path.Join` does on clean elements). -/
def sampleStaticEnv : StaticEnv :=
  ⟨fun parts => List.intercalate (goString "/") parts,
    fun name =>
      if name = goString "assets/client/static/js/app.js" then .ok [1, 2, 3]
      else .error "Asset not found"⟩

/-- A `/rest/status` request on the all-zero state whose encoder fails. -/
def failingStatusEnv : StatusEnv :=
  ⟨zeroState, fun _ => .error "json: unsupported value: NaN"⟩

/-- A `/rest/status` request on the all-zero state whose encoder yields the two bytes
123, 125 for every document. -/
def workingStatusEnv : StatusEnv :=
  ⟨zeroState, fun _ => .ok [123, 125]⟩

/-! ## Lemmas on the drain loop -/

theorem drain_isWsWrite (conn : Conn) (es : List Value) :
    ∀ (n : Nat) (closed : Bool), ∀ e ∈ (drain conn n es closed).1, e.isWsWrite = true := by
  induction es with
  | nil => intro n closed e he; simp [drain] at he
  | cons m rest ih =>
    intro n closed e he
    cases m with
    | other ty => simp [drain] at he
    | bytes b =>
      unfold drain at he
      cases hw : conn.WriteMessage n TextMessage b with
      | some err =>
        rw [hw] at he
        simp at he
        subst he
        rfl
      | none =>
        rw [hw] at he
        simp only [List.mem_cons] at he
        rcases he with he | he
        · subst he; rfl
        · exact ih (n + 1) closed e he

/-- While the writes succeed, the loop writes the byte events one by one and carries on
with what follows them. -/
theorem drain_ok_then (conn : Conn) (es : List Bytes) :
    ∀ (n : Nat) (tail : List Value) (closed : Bool),
      (∀ i d, es[i]? = some d → conn.WriteMessage (n + i) TextMessage d = none) →
      drain conn n (es.map Value.bytes ++ tail) closed =
        (es.map (fun d => Effect.wsWrite TextMessage d none)
            ++ (drain conn (n + es.length) tail closed).1,
          (drain conn (n + es.length) tail closed).2) := by
  induction es with
  | nil => intro n tail closed _; simp
  | cons b rest ih =>
    intro n tail closed hok
    have h0 : conn.WriteMessage n TextMessage b = none := by
      have := hok 0 b (by simp)
      simpa using this
    have hrest : ∀ i d, rest[i]? = some d →
        conn.WriteMessage (n + 1 + i) TextMessage d = none := by
      intro i d hi
      have := hok (i + 1) d (by simpa using hi)
      rw [show n + 1 + i = n + (i + 1) by omega]
      exact this
    have := ih (n + 1) tail closed hrest
    have hdrain : drain conn n (Value.bytes b :: (rest.map Value.bytes ++ tail)) closed =
        (Effect.wsWrite TextMessage b none
            :: (drain conn (n + 1) (rest.map Value.bytes ++ tail) closed).1,
          (drain conn (n + 1) (rest.map Value.bytes ++ tail) closed).2) := by
      simp only [drain, h0]
    rw [List.map_cons, List.cons_append, hdrain, this, List.length_cons,
      show n + 1 + rest.length = n + (rest.length + 1) by omega]
    rfl

theorem wsWrites_append (xs ys : List Effect) :
    wsWrites (xs ++ ys) = wsWrites xs ++ wsWrites ys := by
  induction xs with
  | nil => rfl
  | cons x xs ih => cases x <;> simp [wsWrites, ih]

theorem wsWrites_map_ok (es : List Bytes) :
    wsWrites (es.map (fun d => Effect.wsWrite TextMessage d none))
      = es.map (fun d => (TextMessage, d)) := by
  induction es with
  | nil => rfl
  | cons b rest ih => simp [wsWrites, ih]

theorem isHub_of_isWsWrite (e : Effect) (h : e.isWsWrite = true) : e.isHub = false := by
  cases e <;> simp_all [Effect.isWsWrite, Effect.isHub]

theorem filter_isHub_writes (ws : List Effect) (h : ∀ e ∈ ws, e.isWsWrite = true) :
    ws.filter Effect.isHub = [] := by
  rw [List.filter_eq_nil_iff]
  intro e he
  simp [isHub_of_isWsWrite e (h e he)]

/-- The handler after a successful upgrade, in terms of the drain loop. -/
theorem wsHandler_ok (env : WsEnv) (conn : Conn) (hup : env.upgrade = .ok conn) :
    wsHandler env =
      if (drain conn 0 (env.feed env.Reg).events (env.feed env.Reg).closed).2 = .blocked then
        (.hubReg env.Reg
            :: (drain conn 0 (env.feed env.Reg).events (env.feed env.Reg).closed).1,
          .blocked)
      else
        (.hubReg env.Reg
            :: (drain conn 0 (env.feed env.Reg).events (env.feed env.Reg).closed).1
            ++ [.hubUnReg env.Reg],
          (drain conn 0 (env.feed env.Reg).events (env.feed env.Reg).closed).2) := by
  unfold wsHandler
  rw [hup]
  simp only
  split
  · next h => simp [h]
  · next h => rw [if_neg (fun hb => h hb)]

/-- A write that fails ends the loop right after it. -/
theorem drain_fail (conn : Conn) (n : Nat) (b : Bytes) (rest : List Value) (closed : Bool)
    (h : conn.WriteMessage n TextMessage b ≠ none) :
    ∃ err, drain conn n (.bytes b :: rest) closed
      = ([.wsWrite TextMessage b (some err)], .returned) := by
  cases hw : conn.WriteMessage n TextMessage b with
  | none => exact absurd hw h
  | some err => exact ⟨err, by simp [drain, hw]⟩

/-- The writes made before a value that is not a byte sequence are a prefix of the byte
events in front of it, and the loop does not stay blocked. -/
theorem drain_before_other (conn : Conn) (pre : List Bytes) (ty : String)
    (rest : List Value) (closed : Bool) :
    ∀ n : Nat,
      wsWrites (drain conn n (pre.map Value.bytes ++ Value.other ty :: rest) closed).1
          <+: pre.map (fun d => (TextMessage, d)) ∧
      (drain conn n (pre.map Value.bytes ++ Value.other ty :: rest) closed).2 ≠ .blocked := by
  induction pre with
  | nil => intro n; simp [drain, wsWrites]
  | cons b pre ih =>
    intro n
    cases hw : conn.WriteMessage n TextMessage b with
    | some err =>
      simp only [List.map_cons, List.cons_append, drain, hw, wsWrites]
      refine ⟨?_, by simp⟩
      exact ⟨pre.map (fun d => (TextMessage, d)), rfl⟩
    | none =>
      have := ih (n + 1)
      simp only [List.map_cons, List.cons_append, drain, hw, wsWrites]
      refine ⟨?_, this.2⟩
      obtain ⟨t, ht⟩ := this.1
      exact ⟨t, by rw [← ht]; rfl⟩

/-- The websocket writes of the handler are those of its drain loop. -/
theorem wsWrites_wsHandler (env : WsEnv) (conn : Conn) (hup : env.upgrade = .ok conn) :
    wsWrites (wsHandler env).1
      = wsWrites (drain conn 0 (env.feed env.Reg).events (env.feed env.Reg).closed).1 := by
  rw [wsHandler_ok env conn hup]
  split <;> simp [wsWrites, wsWrites_append]

/-- The loop on byte events whose first failing write is the one of index `k`. -/
theorem drain_first_failure (conn : Conn) (es : List Bytes) (closed : Bool) (k : Nat)
    (b : Bytes) (hk : es[k]? = some b)
    (hbefore : ∀ i c, i < k → es[i]? = some c → conn.WriteMessage i TextMessage c = none)
    (hfail : conn.WriteMessage k TextMessage b ≠ none) :
    wsWrites (drain conn 0 (es.map Value.bytes) closed).1
      = (es.take (k + 1)).map (fun d => (TextMessage, d)) := by
  have hlt : k < es.length := by
    by_contra hge
    rw [List.getElem?_eq_none (by omega)] at hk
    cases hk
  have hsplit : es = es.take k ++ b :: es.drop (k + 1) := by
    have hb : es[k] = b := by
      rw [List.getElem?_eq_getElem hlt] at hk
      exact Option.some.inj hk
    rw [← hb, ← List.drop_eq_getElem_cons hlt, List.take_append_drop]
  have hmap : es.map Value.bytes
      = (es.take k).map Value.bytes ++ Value.bytes b :: (es.drop (k + 1)).map Value.bytes := by
    conv_lhs => rw [hsplit]
    simp
  have hlen : (es.take k).length = k := by
    rw [List.length_take]; omega
  have hok : ∀ i d, (es.take k)[i]? = some d →
      conn.WriteMessage (0 + i) TextMessage d = none := by
    intro i d hi
    rw [List.getElem?_take] at hi
    split at hi
    · next hik => rw [Nat.zero_add]; exact hbefore i d hik hi
    · cases hi
  obtain ⟨err, herr⟩ := drain_fail conn k b ((es.drop (k + 1)).map Value.bytes) closed hfail
  rw [hmap, drain_ok_then conn (es.take k) 0 _ closed hok, hlen, Nat.zero_add, herr]
  simp only [wsWrites_append, wsWrites_map_ok, wsWrites]
  rw [List.take_succ, hk]
  simp

/-! ## Claims on the `/_ws` handler -/

/-- C1: when the upgrade succeeds and the handler invocation ends (it is not left blocked
on the channel), the trace is `Reg`, then only websocket writes, then `UnReg` of the channel
that `Reg` returned; so the hub operations are exactly that `Reg` and that `UnReg`, the
`Reg` before every write, the `UnReg` after the last one, and nothing is published. -/
theorem wsHandler_reg_unreg_once (env : WsEnv) (conn : Conn)
    (hup : env.upgrade = .ok conn) (hterm : (wsHandler env).2 ≠ .blocked) :
    ∃ ws : List Effect,
      (∀ e ∈ ws, e.isWsWrite = true) ∧
      (wsHandler env).1 = .hubReg env.Reg :: ws ++ [.hubUnReg env.Reg] ∧
      (wsHandler env).1.filter Effect.isHub = [.hubReg env.Reg, .hubUnReg env.Reg] := by
  rw [wsHandler_ok env conn hup] at hterm ⊢
  have hws := drain_isWsWrite conn (env.feed env.Reg).events 0 (env.feed env.Reg).closed
  by_cases hb : (drain conn 0 (env.feed env.Reg).events (env.feed env.Reg).closed).2 = .blocked
  · rw [if_pos hb] at hterm
    exact absurd rfl hterm
  · rw [if_neg hb]
    refine ⟨_, hws, rfl, ?_⟩
    simp [List.filter_cons, List.filter_append, Effect.isHub, filter_isHub_writes _ hws]

/-- Witness for C1: two byte events, the second write fails. -/
theorem wsHandler_reg_unreg_once_witness :
    ∃ ws : List Effect,
      (∀ e ∈ ws, e.isWsWrite = true) ∧
      (wsHandler ⟨.ok ⟨fun n _ _ => if n = 1 then some "broken pipe" else none⟩, 7,
          fun _ => ⟨[.bytes [1], .bytes [2], .bytes [3]], false⟩⟩).1
        = .hubReg 7 :: ws ++ [.hubUnReg 7] ∧
      (wsHandler ⟨.ok ⟨fun n _ _ => if n = 1 then some "broken pipe" else none⟩, 7,
          fun _ => ⟨[.bytes [1], .bytes [2], .bytes [3]], false⟩⟩).1.filter Effect.isHub
        = [.hubReg 7, .hubUnReg 7] :=
  wsHandler_reg_unreg_once
    ⟨.ok ⟨fun n _ _ => if n = 1 then some "broken pipe" else none⟩, 7,
      fun _ => ⟨[.bytes [1], .bytes [2], .bytes [3]], false⟩⟩
    ⟨fun n _ _ => if n = 1 then some "broken pipe" else none⟩ rfl (by decide)

/-- C3: when the websocket upgrade fails, the handler answers `http.Error` with status
400, logs a warning and returns; it performs no hub operation (no `Reg`, no `UnReg`) and
no websocket write. -/
theorem wsHandler_upgrade_failure (env : WsEnv) (err : String)
    (hup : env.upgrade = .error err) :
    wsHandler env =
      ([.httpError "Failed websocket upgrade" 400,
        .warn "Failed websocket upgrade: %v" [err]], .returned) ∧
    (∀ e ∈ (wsHandler env).1, e.isHub = false ∧ e.isWsWrite = false) := by
  have h : wsHandler env =
      ([.httpError "Failed websocket upgrade" 400,
        .warn "Failed websocket upgrade: %v" [err]], .returned) := by
    unfold wsHandler
    rw [hup]
  refine ⟨h, ?_⟩
  rw [h]
  intro e he
  simp only [List.mem_cons, List.mem_singleton, List.not_mem_nil, or_false] at he
  rcases he with he | he <;> subst he <;> exact ⟨rfl, rfl⟩

/-- Witness for C3: an upgrade that fails with "bad handshake". -/
theorem wsHandler_upgrade_failure_witness :
    wsHandler ⟨.error "bad handshake", 0, fun _ => ⟨[.bytes [1]], true⟩⟩ =
      ([.httpError "Failed websocket upgrade" 400,
        .warn "Failed websocket upgrade: %v" ["bad handshake"]], .returned) ∧
    (∀ e ∈ (wsHandler ⟨.error "bad handshake", 0, fun _ => ⟨[.bytes [1]], true⟩⟩).1,
      e.isHub = false ∧ e.isWsWrite = false) :=
  wsHandler_upgrade_failure ⟨.error "bad handshake", 0, fun _ => ⟨[.bytes [1]], true⟩⟩
    "bad handshake" rfl

/-- C2: with a channel that delivers the byte sequences `es`, the websocket writes are the
events in order, unmodified, each as a text message. If the write of index `k` is the first
that fails, exactly the first `k + 1` events are written (the failed one is not retried and
nothing follows it); if no write fails, every event is written exactly once. -/
theorem wsHandler_writes_fifo (env : WsEnv) (conn : Conn) (es : List Bytes)
    (hup : env.upgrade = .ok conn)
    (hfeed : (env.feed env.Reg).events = es.map Value.bytes) :
    (∀ k b, es[k]? = some b →
        (∀ i c, i < k → es[i]? = some c → conn.WriteMessage i TextMessage c = none) →
        conn.WriteMessage k TextMessage b ≠ none →
        wsWrites (wsHandler env).1 = (es.take (k + 1)).map (fun d => (TextMessage, d)) ∧
        (wsWrites (wsHandler env).1).length = k + 1) ∧
    ((∀ i c, es[i]? = some c → conn.WriteMessage i TextMessage c = none) →
        wsWrites (wsHandler env).1 = es.map (fun d => (TextMessage, d))) := by
  rw [wsWrites_wsHandler env conn hup, hfeed]
  constructor
  · intro k b hk hbefore hfail
    have hlt : k < es.length := by
      by_contra hge
      rw [List.getElem?_eq_none (by omega)] at hk
      cases hk
    have h := drain_first_failure conn es (env.feed env.Reg).closed k b hk hbefore hfail
    refine ⟨h, ?_⟩
    rw [h, List.length_map, List.length_take]
    omega
  · intro hall
    have h := drain_ok_then conn es 0 [] (env.feed env.Reg).closed
      (by intro i d hi; rw [Nat.zero_add]; exact hall i d hi)
    rw [List.append_nil] at h
    rw [h]
    simp [wsWrites_append, wsWrites_map_ok, drain, wsWrites]

/-- C9: when the first event that is not a byte sequence has index `pre.length`, the
handler writes only events in front of it (a prefix of them, in order), ends with `UnReg`
of the channel that `Reg` returned as its only other hub operation, and, when the writes
of the events in front all succeed, writes all of them and panics on the type assertion
without attempting a write for that event or a later one. -/
theorem wsHandler_non_bytes_event (env : WsEnv) (conn : Conn) (pre : List Bytes)
    (ty : String) (rest : List Value)
    (hup : env.upgrade = .ok conn)
    (hfeed : (env.feed env.Reg).events = pre.map Value.bytes ++ Value.other ty :: rest) :
    (∃ ws : List Effect,
        (∀ e ∈ ws, e.isWsWrite = true) ∧
        (wsHandler env).1 = .hubReg env.Reg :: ws ++ [.hubUnReg env.Reg] ∧
        wsWrites ws <+: pre.map (fun d => (TextMessage, d))) ∧
    ((∀ i c, pre[i]? = some c → conn.WriteMessage i TextMessage c = none) →
        wsHandler env =
          (.hubReg env.Reg :: pre.map (fun d => Effect.wsWrite TextMessage d none)
              ++ [.hubUnReg env.Reg],
            .panicked (assertPanic ty))) := by
  have hpre := drain_before_other conn pre ty rest (env.feed env.Reg).closed 0
  have hws := drain_isWsWrite conn (env.feed env.Reg).events 0 (env.feed env.Reg).closed
  rw [wsHandler_ok env conn hup]
  rw [hfeed] at hws ⊢
  rw [if_neg hpre.2]
  refine ⟨⟨_, hws, rfl, hpre.1⟩, ?_⟩
  intro hall
  have h := drain_ok_then conn pre 0 (Value.other ty :: rest) (env.feed env.Reg).closed
    (by intro i d hi; rw [Nat.zero_add]; exact hall i d hi)
  rw [h]
  simp [drain]

/-- Witness for C2: three events; on a connection whose second write fails exactly the
first two are written, on a connection that never fails all three are. -/
theorem wsHandler_writes_fifo_witness :
    (wsWrites (wsHandler (sampleWsEnv flakyConn [.bytes [1], .bytes [2], .bytes [3]])).1
        = [(TextMessage, [1]), (TextMessage, [2])] ∧
      (wsWrites
        (wsHandler (sampleWsEnv flakyConn [.bytes [1], .bytes [2], .bytes [3]])).1).length
        = 2) ∧
    wsWrites (wsHandler (sampleWsEnv goodConn [.bytes [1], .bytes [2], .bytes [3]])).1
        = [(TextMessage, [1]), (TextMessage, [2]), (TextMessage, [3])] :=
  ⟨(wsHandler_writes_fifo (sampleWsEnv flakyConn [.bytes [1], .bytes [2], .bytes [3]])
      flakyConn [[1], [2], [3]] rfl rfl).1 1 [2] rfl
      (by
        intro i c hi _
        have h0 : i = 0 := by omega
        subst h0
        rfl)
      (by decide),
    (wsHandler_writes_fifo (sampleWsEnv goodConn [.bytes [1], .bytes [2], .bytes [3]])
      goodConn [[1], [2], [3]] rfl rfl).2 (fun _ _ _ => rfl)⟩

/-- Witness for C9: two byte events, then a string, then one more byte event, on a
connection that never fails: two writes, the panic, and the deferred `UnReg`. -/
theorem wsHandler_non_bytes_event_witness :
    wsHandler (sampleWsEnv goodConn [.bytes [1], .bytes [2], .other "string", .bytes [3]])
      = ([.hubReg 7, .wsWrite TextMessage [1] none, .wsWrite TextMessage [2] none,
            .hubUnReg 7],
          .panicked "interface conversion: interface {} is string, not []uint8") :=
  (wsHandler_non_bytes_event
    (sampleWsEnv goodConn [.bytes [1], .bytes [2], .other "string", .bytes [3]])
    goodConn [[1], [2]] "string" [.bytes [3]] rfl rfl).2 (fun _ _ _ => rfl)

/-! ## Lemmas on the status document -/

theorem topLevelKeys_nodup : topLevelKeys.Nodup := by decide

theorem histogramFields_nodup : histogramFields.Nodup := by decide

theorem length_five {α : Type} (l : List α) (h : l.length = 5) :
    ∃ a b c d e, l = [a, b, c, d, e] := by
  match l, h with
  | [a, b, c, d, e], _ => exact ⟨a, b, c, d, e, rfl⟩

/-- The document the handler builds when both percentile queries answer five values. -/
theorem statusDocument_eq (st : State) (a0 a1 a2 a3 a4 b0 b1 b2 b3 b4 : Float64)
    (hin : st.GetBytesInMetrics.2.Snapshot.Percentiles quantiles = [a0, a1, a2, a3, a4])
    (hout : st.GetBytesOutMetrics.2.Snapshot.Percentiles quantiles = [b0, b1, b2, b3, b4]) :
    statusDocument st = .ok
      [("tunnels", .tunnels st.GetTunnels),
       ("client_version", .string st.GetClientVersion),
       ("server_version", .string st.GetServerVersion),
       ("connection_status", .connStatus st.GetConnStatus),
       ("connection_metrics", .values
          [("count", .int st.GetConnectionMetrics.Snapshot.Count),
           ("1m.rate", .float st.GetConnectionMetrics.Snapshot.Rate1),
           ("5m.rate", .float st.GetConnectionMetrics.Snapshot.Rate5),
           ("15m.rate", .float st.GetConnectionMetrics.Snapshot.Rate15),
           ("mean.rate", .float st.GetConnectionMetrics.Snapshot.RateMean)]),
       ("bytes_in", .values
          [("count", .int st.GetBytesInMetrics.1.Count),
           ("min", .int st.GetBytesInMetrics.2.Snapshot.Min),
           ("max", .int st.GetBytesInMetrics.2.Snapshot.Max),
           ("mean", .float st.GetBytesInMetrics.2.Snapshot.Mean),
           ("stddev", .float st.GetBytesInMetrics.2.Snapshot.StdDev),
           ("median", .float a0), ("75%", .float a1), ("95%", .float a2),
           ("99%", .float a3), ("99.9%", .float a4)]),
       ("bytes_out", .values
          [("count", .int st.GetBytesOutMetrics.1.Count),
           ("min", .int st.GetBytesOutMetrics.2.Snapshot.Min),
           ("max", .int st.GetBytesOutMetrics.2.Snapshot.Max),
           ("mean", .float st.GetBytesOutMetrics.2.Snapshot.Mean),
           ("stddev", .float st.GetBytesOutMetrics.2.Snapshot.StdDev),
           ("median", .float b0), ("75%", .float b1), ("95%", .float b2),
           ("99%", .float b3), ("99.9%", .float b4)])] := by
  obtain ⟨ts, cv, sv, cs, meter, ⟨cin, hisIn⟩, ⟨cout, hisOut⟩⟩ := st
  simp only at hin hout
  unfold statusDocument
  simp only [hin, hout, index]
  rfl

/-! ## Claims on the `/rest/status` handler -/

/-- C4: when each percentile query answers one value per requested percentile (as the
metrics library does, also for an empty histogram), the handler builds a document whose
keys are exactly the seven top-level keys, each once; `tunnels`, `client_version`,
`server_version` and `connection_status` hold what `GetTunnels`, `GetClientVersion`,
`GetServerVersion` and `GetConnStatus` return, and `connection_metrics`, `bytes_in` and
`bytes_out` each hold a map of metric fields. -/
theorem statusDocument_top_level_keys (st : State)
    (hin : (st.GetBytesInMetrics.2.Snapshot.Percentiles quantiles).length = quantiles.length)
    (hout : (st.GetBytesOutMetrics.2.Snapshot.Percentiles quantiles).length
      = quantiles.length) :
    ∃ (j : Document) (vc vi vo : Values),
      statusDocument st = .ok j ∧
      (mapKeys j).Nodup ∧
      (∀ k, k ∈ mapKeys j ↔ k ∈ topLevelKeys) ∧
      mapGet j "tunnels" = some (.tunnels st.GetTunnels) ∧
      mapGet j "client_version" = some (.string st.GetClientVersion) ∧
      mapGet j "server_version" = some (.string st.GetServerVersion) ∧
      mapGet j "connection_status" = some (.connStatus st.GetConnStatus) ∧
      mapGet j "connection_metrics" = some (.values vc) ∧
      mapGet j "bytes_in" = some (.values vi) ∧
      mapGet j "bytes_out" = some (.values vo) := by
  obtain ⟨a0, a1, a2, a3, a4, ha⟩ := length_five _ hin
  obtain ⟨b0, b1, b2, b3, b4, hb⟩ := length_five _ hout
  refine ⟨_, _, _, _, statusDocument_eq st a0 a1 a2 a3 a4 b0 b1 b2 b3 b4 ha hb,
    topLevelKeys_nodup, ?_, rfl, rfl, rfl, rfl, rfl, rfl, rfl⟩
  intro k
  exact Iff.rfl

/-- Witness for C4: the all-zero, empty state. -/
theorem statusDocument_top_level_keys_witness :
    ∃ (j : Document) (vc vi vo : Values),
      statusDocument zeroState = .ok j ∧
      (mapKeys j).Nodup ∧
      (∀ k, k ∈ mapKeys j ↔ k ∈ topLevelKeys) ∧
      mapGet j "tunnels" = some (.tunnels zeroState.GetTunnels) ∧
      mapGet j "client_version" = some (.string zeroState.GetClientVersion) ∧
      mapGet j "server_version" = some (.string zeroState.GetServerVersion) ∧
      mapGet j "connection_status" = some (.connStatus zeroState.GetConnStatus) ∧
      mapGet j "connection_metrics" = some (.values vc) ∧
      mapGet j "bytes_in" = some (.values vi) ∧
      mapGet j "bytes_out" = some (.values vo) :=
  statusDocument_top_level_keys zeroState rfl rfl

/-- C5, against the claim: in the document of the all-zero state the `bytes_in` group has
no field named `p75`, which the specification lists; the field the handler writes is named
`75%`, which the specification does not list. -/
theorem histogram_fields_counterexample :
    ∃ (j : Document) (v : Values),
      statusDocument zeroState = .ok j ∧
      mapGet j "bytes_in" = some (.values v) ∧
      "p75" ∈ specHistogramFields ∧ "p75" ∉ mapKeys v ∧
      "75%" ∈ mapKeys v ∧ "75%" ∉ specHistogramFields :=
  ⟨_, _, statusDocument_eq zeroState ⟨0⟩ ⟨0⟩ ⟨0⟩ ⟨0⟩ ⟨0⟩ ⟨0⟩ ⟨0⟩ ⟨0⟩ ⟨0⟩ ⟨0⟩ rfl rfl, rfl,
    by decide, by decide, by decide, by decide⟩

/-- C5, amended: when each percentile query answers one value per requested percentile,
the groups `bytes_in` and `bytes_out` of the document each have exactly the field names
count, min, max, mean, stddev, median, 75%, 95%, 99% and 99.9%, each once. -/
theorem histogram_fields (st : State)
    (hin : (st.GetBytesInMetrics.2.Snapshot.Percentiles quantiles).length = quantiles.length)
    (hout : (st.GetBytesOutMetrics.2.Snapshot.Percentiles quantiles).length
      = quantiles.length) :
    ∃ (j : Document) (vi vo : Values),
      statusDocument st = .ok j ∧
      mapGet j "bytes_in" = some (.values vi) ∧
      mapGet j "bytes_out" = some (.values vo) ∧
      (mapKeys vi).Nodup ∧ (∀ k, k ∈ mapKeys vi ↔ k ∈ histogramFields) ∧
      (mapKeys vo).Nodup ∧ (∀ k, k ∈ mapKeys vo ↔ k ∈ histogramFields) := by
  obtain ⟨a0, a1, a2, a3, a4, ha⟩ := length_five _ hin
  obtain ⟨b0, b1, b2, b3, b4, hb⟩ := length_five _ hout
  exact ⟨_, _, _, statusDocument_eq st a0 a1 a2 a3 a4 b0 b1 b2 b3 b4 ha hb, rfl, rfl,
    histogramFields_nodup, fun _ => Iff.rfl, histogramFields_nodup, fun _ => Iff.rfl⟩

/-- Witness for C5 (amended): the all-zero, empty state. -/
theorem histogram_fields_witness :
    ∃ (j : Document) (vi vo : Values),
      statusDocument zeroState = .ok j ∧
      mapGet j "bytes_in" = some (.values vi) ∧
      mapGet j "bytes_out" = some (.values vo) ∧
      (mapKeys vi).Nodup ∧ (∀ k, k ∈ mapKeys vi ↔ k ∈ histogramFields) ∧
      (mapKeys vo).Nodup ∧ (∀ k, k ∈ mapKeys vo ↔ k ∈ histogramFields) :=
  histogram_fields zeroState rfl rfl

/-- C10: when each percentile query answers one value per requested percentile, no index
expression of the handler goes out of range (the document is built), and in the document
the `bytes_in` group holds the figures of the counter and of the histogram snapshot of
`GetBytesInMetrics`, the `bytes_out` group those of `GetBytesOutMetrics`: the count of
the counter, min, max, mean and stddev of the snapshot, and the answers of that snapshot
for 0.5, 0.75, 0.95, 0.99 and 0.999 under median, 75%, 95%, 99% and 99.9%. -/
theorem statusDocument_histogram_groups (st : State)
    (hin : (st.GetBytesInMetrics.2.Snapshot.Percentiles quantiles).length = quantiles.length)
    (hout : (st.GetBytesOutMetrics.2.Snapshot.Percentiles quantiles).length
      = quantiles.length) :
    ∃ (j : Document) (vi vo : Values),
      statusDocument st = .ok j ∧
      mapGet j "bytes_in" = some (.values vi) ∧
      mapGet j "bytes_out" = some (.values vo) ∧
      IsHistogramGroup vi st.GetBytesInMetrics.1 st.GetBytesInMetrics.2.Snapshot ∧
      IsHistogramGroup vo st.GetBytesOutMetrics.1 st.GetBytesOutMetrics.2.Snapshot := by
  obtain ⟨a0, a1, a2, a3, a4, ha⟩ := length_five _ hin
  obtain ⟨b0, b1, b2, b3, b4, hb⟩ := length_five _ hout
  exact ⟨_, _, _, statusDocument_eq st a0 a1 a2 a3 a4 b0 b1 b2 b3 b4 ha hb, rfl, rfl,
    ⟨a0, a1, a2, a3, a4, ha, rfl, rfl, rfl, rfl, rfl, rfl, rfl, rfl, rfl, rfl⟩,
    ⟨b0, b1, b2, b3, b4, hb, rfl, rfl, rfl, rfl, rfl, rfl, rfl, rfl, rfl, rfl⟩⟩

/-- Witness for C10: a state whose inbound and outbound figures all differ. -/
theorem statusDocument_histogram_groups_witness :
    ∃ (j : Document) (vi vo : Values),
      statusDocument sampleState = .ok j ∧
      mapGet j "bytes_in" = some (.values vi) ∧
      mapGet j "bytes_out" = some (.values vo) ∧
      IsHistogramGroup vi sampleState.GetBytesInMetrics.1
        sampleState.GetBytesInMetrics.2.Snapshot ∧
      IsHistogramGroup vo sampleState.GetBytesOutMetrics.1
        sampleState.GetBytesOutMetrics.2.Snapshot :=
  statusDocument_histogram_groups sampleState rfl rfl

/-- C6: when each percentile query answers one value per requested percentile, the
handler builds the document `j`; if `json.Marshal(j)` fails with `err` the response is
`http.Error` with the error text and status 500 and nothing else is written after the
header, if it succeeds with `a` the only body write is `a`; either way the handler
performs no hub operation. -/
theorem statusHandler_marshal (env : StatusEnv)
    (hin : (env.State.GetBytesInMetrics.2.Snapshot.Percentiles quantiles).length
      = quantiles.length)
    (hout : (env.State.GetBytesOutMetrics.2.Snapshot.Percentiles quantiles).length
      = quantiles.length) :
    ∃ j : Document,
      statusDocument env.State = .ok j ∧
      (∀ err, env.Marshal j = .error err →
        statusHandler env =
          ([.setHeader "Content-Type" "application/json; charset=utf-8",
            .httpError err 500], .returned)) ∧
      (∀ a, env.Marshal j = .ok a →
        statusHandler env =
          ([.setHeader "Content-Type" "application/json; charset=utf-8",
            .write a], .returned)) ∧
      (∀ e ∈ (statusHandler env).1, e.isHub = false) := by
  obtain ⟨a0, a1, a2, a3, a4, ha⟩ := length_five _ hin
  obtain ⟨b0, b1, b2, b3, b4, hb⟩ := length_five _ hout
  have hj := statusDocument_eq env.State a0 a1 a2 a3 a4 b0 b1 b2 b3 b4 ha hb
  refine ⟨_, hj, ?_, ?_, ?_⟩
  · intro err herr
    simp only [statusHandler, hj, herr]
  · intro a hok
    simp only [statusHandler, hj, hok]
  · intro e he
    simp only [statusHandler, hj] at he
    split at he
    · simp only [List.mem_cons, List.mem_singleton, List.not_mem_nil, or_false] at he
      rcases he with he | he <;> subst he <;> rfl
    · simp only [List.mem_cons, List.mem_singleton, List.not_mem_nil, or_false] at he
      rcases he with he | he <;> subst he <;> rfl

/-- Witness for C6: on the all-zero state, an encoder that fails gives the 500 response
and no body write, an encoder that succeeds gives its output as the only body write. -/
theorem statusHandler_marshal_witness :
    statusHandler failingStatusEnv =
        ([.setHeader "Content-Type" "application/json; charset=utf-8",
          .httpError "json: unsupported value: NaN" 500], .returned) ∧
    statusHandler workingStatusEnv =
        ([.setHeader "Content-Type" "application/json; charset=utf-8",
          .write [123, 125]], .returned) :=
  ⟨(statusHandler_marshal failingStatusEnv rfl rfl).elim
      (fun _ h => h.2.1 "json: unsupported value: NaN" rfl),
    (statusHandler_marshal workingStatusEnv rfl rfl).elim
      (fun _ h => h.2.2.1 [123, 125] rfl)⟩

/-! ## Claim on the `/static/` handler -/

theorem goString_static : goString "/static/" = [47, 115, 116, 97, 116, 105, 99, 47] := by
  decide

/-- C7: for a URL path `p` that begins with `/static/`, the slice `p[1:]` is in range and
is `p` without its leading slash; the handler looks up the asset named
`path.Join("assets", "client", p[1:])`; when the lookup succeeds the handler writes
exactly the asset's bytes, and when it fails the handler answers `http.NotFound` and
writes no asset bytes. -/
theorem staticHandler_serves_asset (env : StaticEnv) (p : Bytes)
    (hp : goString "/static/" <+: p) :
    sliceFrom p 1 = .ok (p.drop 1) ∧
    p = goString "/" ++ p.drop 1 ∧
    (∀ buf, env.Asset (env.Join [goString "assets", goString "client", p.drop 1]) = .ok buf →
      staticHandler env p = ([.write buf], .returned)) ∧
    (∀ err,
      env.Asset (env.Join [goString "assets", goString "client", p.drop 1]) = .error err →
      staticHandler env p =
        ([.warn "Error serving static file: %s" [err], .notFound], .returned)) := by
  obtain ⟨t, rfl⟩ := hp
  rw [goString_static]
  have hslice : sliceFrom ([47, 115, 116, 97, 116, 105, 99, 47] ++ t) 1
      = .ok (([47, 115, 116, 97, 116, 105, 99, 47] ++ t).drop 1) := by
    simp [sliceFrom]
  refine ⟨hslice, rfl, ?_, ?_⟩
  · intro buf hbuf
    simp only [staticHandler, hslice, hbuf]
  · intro err herr
    simp only [staticHandler, hslice, herr]

/-- Witness for C7: `/static/js/app.js` is a bundled asset and is served, and
`/static/missing` is not and gets the not-found response. -/
theorem staticHandler_serves_asset_witness :
    staticHandler sampleStaticEnv (goString "/static/js/app.js")
        = ([.write [1, 2, 3]], .returned) ∧
    staticHandler sampleStaticEnv (goString "/static/missing")
        = ([.warn "Error serving static file: %s" ["Asset not found"], .notFound],
            .returned) :=
  ⟨(staticHandler_serves_asset sampleStaticEnv (goString "/static/js/app.js")
      ⟨goString "js/app.js", by decide⟩).2.2.1 [1, 2, 3] rfl,
    (staticHandler_serves_asset sampleStaticEnv (goString "/static/missing")
      ⟨goString "missing", by decide⟩).2.2.2 "Asset not found" rfl⟩

/-! ## Lemmas on the broadcast hub -/

theorem receivedOf_append (xs ys : List (Chan × Value)) (c : Chan) :
    receivedOf (xs ++ ys) c = receivedOf xs c ++ receivedOf ys c := by
  simp [receivedOf]

theorem receivedOf_fanout_not_mem (ls : List Chan) (v : Value) (c : Chan) (h : c ∉ ls) :
    receivedOf (ls.map (fun l => (l, v))) c = [] := by
  induction ls with
  | nil => rfl
  | cons l ls ih =>
    have hne : l ≠ c := fun e => h (by simp [e])
    have hrest : c ∉ ls := fun e => h (List.mem_cons_of_mem _ e)
    have := ih hrest
    simp only [receivedOf] at this ⊢
    simp [List.filter_cons, hne, this]

theorem receivedOf_fanout_mem (ls : List Chan) (v : Value) (c : Chan) (hnd : ls.Nodup)
    (h : c ∈ ls) : receivedOf (ls.map (fun l => (l, v))) c = [v] := by
  induction ls with
  | nil => simp at h
  | cons l ls ih =>
    rw [List.nodup_cons] at hnd
    by_cases hl : l = c
    · subst hl
      have := receivedOf_fanout_not_mem ls v l hnd.1
      simp only [receivedOf] at this ⊢
      simp [List.filter_cons, this]
    · have hc : c ∈ ls := by
        rcases List.mem_cons.mp h with e | e
        · exact absurd e.symm hl
        · exact e
      have := ih hnd.2 hc
      simp only [receivedOf] at this ⊢
      simp [List.filter_cons, hl, this]

theorem NewBroadcast_inv : NewBroadcast.Inv :=
  ⟨List.nodup_nil, by simp [NewBroadcast], by simp [NewBroadcast]⟩

theorem Broadcast.step_inv (b : Broadcast) (op : HubOp) (h : b.Inv) : (b.step op).Inv := by
  cases op with
  | reg =>
    refine ⟨?_, ?_, ?_⟩
    · show (b.listeners ++ [b.next]).Nodup
      rw [List.nodup_append]
      refine ⟨h.nodup, List.nodup_singleton _, ?_⟩
      intro a ha hb
      have hlt : a < b.next := h.listeners_lt a ha
      have heq : a = b.next := by simpa using hb
      exact absurd heq (Nat.ne_of_lt hlt)
    · intro c hc
      have hc' : c ∈ b.listeners ++ [b.next] := hc
      show c < b.next + 1
      rcases List.mem_append.mp hc' with hc | hc
      · exact Nat.lt_succ_of_lt (h.listeners_lt c hc)
      · have heq : c = b.next := by simpa using hc
        rw [heq]
        exact Nat.lt_succ_self _
    · intro d hd
      show d.1 < b.next + 1
      exact Nat.lt_succ_of_lt (h.delivered_lt d hd)
  | unreg c =>
    refine ⟨?_, ?_, h.delivered_lt⟩
    · exact h.nodup.filter _
    · intro a ha
      have ha' : a ∈ b.listeners.filter (fun l => l ≠ c) := ha
      exact h.listeners_lt a (List.mem_of_mem_filter ha')
  | publish v =>
    refine ⟨h.nodup, h.listeners_lt, ?_⟩
    intro d hd
    have hd' : d ∈ b.delivered ++ b.listeners.map (fun l => (l, v)) := hd
    show d.1 < b.next
    rcases List.mem_append.mp hd' with hd | hd
    · exact h.delivered_lt d hd
    · obtain ⟨l, hl, rfl⟩ := List.mem_map.mp hd
      exact h.listeners_lt l hl

theorem Broadcast.run_inv (ops : List HubOp) :
    ∀ b : Broadcast, b.Inv → (b.run ops).Inv := by
  induction ops with
  | nil => intro b h; exact h
  | cons op ops ih => intro b h; exact ih (b.step op) (b.step_inv op h)

/-- Nothing in the delivery record went to the handle that is handed out next. -/
theorem Broadcast.received_next (b : Broadcast) (h : b.Inv) : b.received b.next = [] := by
  unfold Broadcast.received receivedOf
  rw [List.map_eq_nil_iff, List.filter_eq_nil_iff]
  intro d hd
  have := h.delivered_lt d hd
  simp only [decide_eq_true_eq]
  exact Nat.ne_of_lt this

/-- A handle that was handed out and is not registered stays so, and receives nothing,
whatever is called on the hub. -/
theorem Broadcast.step_unregistered (b : Broadcast) (op : HubOp) (c : Chan)
    (hc : c ∉ b.listeners) (hlt : c < b.next) :
    c ∉ (b.step op).listeners ∧ c < (b.step op).next ∧
      (b.step op).received c = b.received c := by
  cases op with
  | reg =>
    refine ⟨?_, Nat.lt_succ_of_lt hlt, rfl⟩
    intro hmem
    have hmem' : c ∈ b.listeners ++ [b.next] := hmem
    rcases List.mem_append.mp hmem' with h | h
    · exact hc h
    · have heq : c = b.next := by simpa using h
      exact absurd heq (Nat.ne_of_lt hlt)
  | unreg a =>
    refine ⟨?_, hlt, rfl⟩
    intro hmem
    have hmem' : c ∈ b.listeners.filter (fun l => l ≠ a) := hmem
    exact hc (List.mem_of_mem_filter hmem')
  | publish v =>
    refine ⟨hc, hlt, ?_⟩
    show receivedOf (b.delivered ++ b.listeners.map (fun l => (l, v))) c
      = receivedOf b.delivered c
    rw [receivedOf_append, receivedOf_fanout_not_mem b.listeners v c hc, List.append_nil]

theorem Broadcast.run_unregistered (ops : List HubOp) (c : Chan) :
    ∀ b : Broadcast, c ∉ b.listeners → c < b.next →
      (b.run ops).received c = b.received c := by
  induction ops with
  | nil => intro b _ _; rfl
  | cons op ops ih =>
    intro b hc hlt
    obtain ⟨h1, h2, h3⟩ := b.step_unregistered op c hc hlt
    show ((b.step op).run ops).received c = b.received c
    rw [ih (b.step op) h1 h2, h3]

theorem Broadcast.next_le_run (ops : List HubOp) :
    ∀ b : Broadcast, b.next ≤ (b.run ops).next := by
  induction ops with
  | nil => intro b; exact Nat.le_refl _
  | cons op ops ih =>
    intro b
    have hstep : b.next ≤ (b.step op).next := by
      cases op with
      | reg => exact Nat.le_succ _
      | unreg a => exact Nat.le_refl _
      | publish v => exact Nat.le_refl _
    exact Nat.le_trans hstep (ih (b.step op))

/-- What a subscriber receives during a sequence of calls is taken, in order, from the
events these calls publish. -/
theorem Broadcast.run_received_sublist (ops : List HubOp) (c : Chan) :
    ∀ b : Broadcast, b.Inv →
      ∃ l : List Value, (b.run ops).received c = b.received c ++ l ∧
        l.Sublist (published ops) := by
  induction ops with
  | nil => intro b _; exact ⟨[], by simp [Broadcast.run], List.Sublist.refl _⟩
  | cons op ops ih =>
    intro b hb
    obtain ⟨l, hl, hsub⟩ := ih (b.step op) (b.step_inv op hb)
    have hrun : (b.run (op :: ops)) = (b.step op).run ops := rfl
    rw [hrun, hl]
    cases op with
    | reg => exact ⟨l, rfl, hsub⟩
    | unreg a => exact ⟨l, rfl, hsub⟩
    | publish v =>
      have hstep : (b.step (.publish v)).received c
          = b.received c ++ receivedOf (b.listeners.map (fun x => (x, v))) c :=
        receivedOf_append _ _ _
      rw [hstep]
      by_cases hc : c ∈ b.listeners
      · rw [receivedOf_fanout_mem b.listeners v c hb.nodup hc]
        exact ⟨v :: l, by simp, hsub.cons₂ v⟩
      · rw [receivedOf_fanout_not_mem b.listeners v c hc]
        exact ⟨l, by simp, hsub.cons v⟩

/-! ## Claim on the broadcast hub -/

/-- C8: on the hub created by `NewBroadcast`, after Register S1, Register S2, Publish x,
Unregister S1, Publish y, subscriber S1 has received only x and S2 has received x then y.
For every history of calls, a subscriber has received nothing at the moment it registers
(no event published before), what it has received by the time it unregisters is taken
from the events published in between, and nothing is added to it by any call made after
it unregistered. -/
theorem broadcast_delivery_window :
    (∀ x y : Value,
      (((NewBroadcast.Reg.2.Reg.2.Publish x).UnReg NewBroadcast.Reg.1).Publish y).received
          NewBroadcast.Reg.1 = [x] ∧
      (((NewBroadcast.Reg.2.Reg.2.Publish x).UnReg NewBroadcast.Reg.1).Publish y).received
          NewBroadcast.Reg.2.Reg.1 = [x, y]) ∧
    (∀ pre mid post : List HubOp,
      ((NewBroadcast.run pre).Reg.2).received (NewBroadcast.run pre).Reg.1 = [] ∧
      (((NewBroadcast.run pre).Reg.2.run mid).received (NewBroadcast.run pre).Reg.1).Sublist
        (published mid) ∧
      ((((NewBroadcast.run pre).Reg.2.run mid).UnReg (NewBroadcast.run pre).Reg.1).run
          post).received (NewBroadcast.run pre).Reg.1
        = ((NewBroadcast.run pre).Reg.2.run mid).received (NewBroadcast.run pre).Reg.1) := by
  refine ⟨fun x y => ⟨by simp [NewBroadcast, Broadcast.Reg, Broadcast.Publish,
      Broadcast.UnReg, Broadcast.received, receivedOf], by simp [NewBroadcast, Broadcast.Reg,
      Broadcast.Publish, Broadcast.UnReg, Broadcast.received, receivedOf]⟩, ?_⟩
  intro pre mid post
  have hpre : (NewBroadcast.run pre).Inv := Broadcast.run_inv pre _ NewBroadcast_inv
  have hreg : (NewBroadcast.run pre).Reg.2.Inv := (NewBroadcast.run pre).step_inv .reg hpre
  have hfresh : ((NewBroadcast.run pre).Reg.2).received (NewBroadcast.run pre).Reg.1 = [] :=
    (NewBroadcast.run pre).received_next hpre
  refine ⟨hfresh, ?_, ?_⟩
  · obtain ⟨l, hl, hsub⟩ :=
      Broadcast.run_received_sublist mid (NewBroadcast.run pre).Reg.1 _ hreg
    rw [hl, hfresh]
    exact hsub
  · have hlt : (NewBroadcast.run pre).Reg.1
        < (((NewBroadcast.run pre).Reg.2.run mid).UnReg (NewBroadcast.run pre).Reg.1).next :=
      Nat.lt_of_lt_of_le (Nat.lt_succ_self _)
        (Broadcast.next_le_run mid (NewBroadcast.run pre).Reg.2)
    have hnot : (NewBroadcast.run pre).Reg.1
        ∉ (((NewBroadcast.run pre).Reg.2.run mid).UnReg (NewBroadcast.run pre).Reg.1).listeners := by
      intro hmem
      have hmem' : (NewBroadcast.run pre).Reg.1 ∈ ((NewBroadcast.run pre).Reg.2.run mid).listeners.filter
          (fun l => l ≠ (NewBroadcast.run pre).Reg.1) := hmem
      simp [List.mem_filter] at hmem'
    rw [Broadcast.run_unregistered post _ _ hnot hlt]
    rfl

end Ngrok
